import Mathlib

/-!
Shallow embedding of the `rendy` command-buffer crate
(`src/command/src/buffer.rs` and `src/command/src/pool.rs`).

Rust encodes the lifecycle state, level, usage and reset-policy of a
command buffer at the type level (zero-sized marker types as type
parameters of `Buffer`).  Following the spec's own porting note
(§9: "reimplement as a tagged-variant runtime state machine"), the
embedding carries those markers as data fields and renders each typed
`impl` block's availability constraint as an `Option`-returning guard:
an operation that Rust makes unavailable at a type returns `none` there.

Native handles (`vk::CommandBuffer`, `vk::CommandPool`) are `Nat`.  The
external device is modelled as a state `Device` holding a fresh-handle
counter and an append-only log of the native calls issued, so that
claims about which native calls an operation performs are statable.
-/

/-- Record of one native device call, mirroring the `ash` device methods
used by the crate (`§6` of the spec). -/
inductive DevCall where
  | allocateCommandBuffers (pool : Nat) (level : Nat) (count : Nat)
  | beginCommandBuffer (buf : Nat) (flags : Nat)
  | endCommandBuffer (buf : Nat)
  | freeCommandBuffers (pool : Nat) (bufs : List Nat)
  | resetCommandPool (pool : Nat)
  | destroyCommandPool (pool : Nat)
deriving DecidableEq, Repr

/-- The external device: a supply of fresh native handles plus the log of
native calls issued so far. -/
structure Device where
  fresh : Nat
  log : List DevCall
deriving DecidableEq, Repr

/-- Model of `device.allocate_command_buffers`: returns `count` fresh
handles and records one batch allocation call. -/
def Device.allocate_command_buffers (d : Device) (pool level count : Nat) :
    List Nat × Device :=
  ((List.range count).map (· + d.fresh),
   ⟨d.fresh + count, d.log ++ [.allocateCommandBuffers pool level count]⟩)

/-- Model of `device.begin_command_buffer`. -/
def Device.begin_command_buffer (d : Device) (buf flags : Nat) : Device :=
  { d with log := d.log ++ [.beginCommandBuffer buf flags] }

/-- Model of `device.end_command_buffer`. -/
def Device.end_command_buffer (d : Device) (buf : Nat) : Device :=
  { d with log := d.log ++ [.endCommandBuffer buf] }

/-- Model of `device.free_command_buffers`. -/
def Device.free_command_buffers (d : Device) (pool : Nat) (bufs : List Nat) : Device :=
  { d with log := d.log ++ [.freeCommandBuffers pool bufs] }

/-- Model of `device.reset_command_pool`. -/
def Device.reset_command_pool (d : Device) (pool : Nat) : Device :=
  { d with log := d.log ++ [.resetCommandPool pool] }

/-- Is a logged call a batch buffer allocation call? -/
def DevCall.isAlloc : DevCall → Bool
  | .allocateCommandBuffers _ _ _ => true
  | _ => false

/-- Is a logged call a batch buffer allocation call requesting a nonzero
number of buffers? -/
def DevCall.isAllocPos : DevCall → Bool
  | .allocateCommandBuffers _ _ c => decide (0 < c)
  | _ => false

/-- Number of batch allocation calls in a log fragment. -/
def allocCalls (l : List DevCall) : Nat := (l.filter DevCall.isAlloc).length

/-- Number of nonzero-count batch allocation calls in a log fragment. -/
def allocPosCalls (l : List DevCall) : Nat := (l.filter DevCall.isAllocPos).length

/-- The leak-detection token of the `relevant` crate: `live = true` until
`dispose` is called.  Dropping a live token is the undischarged-disposal
abort the spec describes. -/
structure Relevant where
  live : Bool
deriving DecidableEq, Repr

/-- Model of `Relevant::dispose`: discharges the token. -/
def Relevant.dispose (_ : Relevant) : Relevant := ⟨false⟩

/-- Dropping a `Relevant` token signals the programming error exactly when
the token was never discharged. -/
def Relevant.abortsOnDrop (r : Relevant) : Bool := r.live

/-- Command buffer level marker (`PrimaryLevel` / `SecondaryLevel`). -/
inductive Level where
  | primary
  | secondary
deriving DecidableEq, Repr

/-- Model of the `Level` trait's `level()` (raw `vk::CommandBufferLevel`
values: `PRIMARY = 0`, `SECONDARY = 1`). -/
def Level.level : Level → Nat
  | .primary => 0
  | .secondary => 1

/-- Reset-policy marker (`IndividualReset` / `NoIndividualReset`). -/
inductive ResetPolicy where
  | individualReset
  | noIndividualReset
deriving DecidableEq, Repr

/-- Model of the `Reset` trait's `flags()`
(`vk::CommandPoolCreateFlags::RESET_COMMAND_BUFFER = 0x2`). -/
def ResetPolicy.flags : ResetPolicy → Nat
  | .individualReset => 2
  | .noIndividualReset => 0

/-- The type parameter `S` of `MultiShot<S>`: either `()` or
`SimultaneousUse`. -/
inductive Sim where
  | unit
  | simultaneousUse
deriving DecidableEq, Repr

/-- Usage marker (`OneShot` / `MultiShot<S>`). -/
inductive Usage where
  | oneShot
  | multiShot (s : Sim)
deriving DecidableEq, Repr

/-- Model of the `Usage` trait's `flags()`
(`ONE_TIME_SUBMIT = 0x1`, `SIMULTANEOUS_USE = 0x4`). -/
def Usage.flags : Usage → Nat
  | .oneShot => 1
  | .multiShot .unit => 0
  | .multiShot .simultaneousUse => 4

/-- Lifecycle state of a command buffer (`InitialState`,
`RecordingState<U>`, `ExecutableState<U>`, `PendingState<N>`,
`InvalidState`). -/
inductive BufState where
  | initial
  | recording (u : Usage)
  | executable (u : Usage)
  | pending (n : BufState)
  | invalid
deriving DecidableEq, Repr

/-- The `Resettable` trait: implemented for `InitialState`,
`RecordingState<U>`, `ExecutableState<U>` and `InvalidState`, but not for
`PendingState<N>`. -/
def Resettable : BufState → Bool
  | .initial => true
  | .recording _ => true
  | .executable _ => true
  | .invalid => true
  | .pending _ => false

/-- The `Buffer<C, S, L, R>` wrapper.  `capability` is the queue-flags
set of the capability marker (`QueueFlags` bitmask); the type-level
markers `S`, `L`, `R` are the `state`, `level` and `reset` fields. -/
structure Buffer where
  raw : Nat
  capability : Nat
  state : BufState
  level : Level
  reset : ResetPolicy
  family : Nat
  relevant : Relevant
deriving DecidableEq, Repr

/-- Model of `Buffer::from_raw`: wraps a raw handle, creating a live
`Relevant` token. -/
def Buffer.from_raw (raw capability : Nat) (state : BufState) (level : Level)
    (reset : ResetPolicy) (family : Nat) : Buffer :=
  ⟨raw, capability, state, level, reset, family, ⟨true⟩⟩

/-- Model of `Buffer::change_state`: replaces the state field, keeping
every other field (including the `Relevant` token). -/
def Buffer.change_state (b : Buffer) (f : BufState → BufState) : Buffer :=
  { b with state := f b.state }

/-- Model of `Buffer::into_raw`: disposes the `Relevant` token and returns
the raw handle.  The second component is the token as it stands when the
consumed `Buffer` goes out of scope. -/
def Buffer.into_raw (b : Buffer) : Nat × Relevant :=
  (b.raw, b.relevant.dispose)

/-- Model of `Buffer::begin`, defined in Rust on
`Buffer<C, InitialState, PrimaryLevel, R>`: issues the native
begin-recording call with the usage's flags and moves to
`RecordingState<U>`.  `none` models type-level unavailability. -/
def Buffer.begin (b : Buffer) (u : Usage) (dev : Device) :
    Option (Buffer × Device) :=
  match b.state, b.level with
  | .initial, .primary =>
      some (b.change_state (fun _ => .recording u),
            dev.begin_command_buffer b.raw u.flags)
  | _, _ => none

/-- Model of `Buffer::finish`, defined in Rust on
`Buffer<C, RecordingState<U>, PrimaryLevel, R>`: issues the native
end-recording call and moves to `ExecutableState<U>`. -/
def Buffer.finish (b : Buffer) (dev : Device) : Option (Buffer × Device) :=
  match b.state, b.level with
  | .recording u, .primary =>
      some (b.change_state (fun _ => .executable u),
            dev.end_command_buffer b.raw)
  | _, _ => none

/-- The `Submit` token: raw handle plus family index. -/
structure Submit where
  raw : Nat
  family : Nat
deriving DecidableEq, Repr

/-- Model of `Buffer::submit_once`, defined in Rust on
`Buffer<C, ExecutableState<OneShot>, PrimaryLevel, R>`: moves to
`PendingState<InvalidState>` and produces a `Submit` token. -/
def Buffer.submit_once (b : Buffer) : Option (Submit × Buffer) :=
  match b.state, b.level with
  | .executable .oneShot, .primary =>
      let buffer := b.change_state (fun _ => .pending .invalid)
      some ({ raw := buffer.raw, family := buffer.family }, buffer)
  | _, _ => none

/-- Model of `Buffer::submit`, defined in Rust on
`Buffer<C, ExecutableState<MultiShot<S>>, PrimaryLevel, R>`: wraps the
current state into `PendingState` and produces a `Submit` token. -/
def Buffer.submit (b : Buffer) : Option (Submit × Buffer) :=
  match b.state, b.level with
  | .executable (.multiShot _), .primary =>
      let buffer := b.change_state (fun state => .pending state)
      some ({ raw := buffer.raw, family := buffer.family }, buffer)
  | _, _ => none

/-- Model of `Buffer::complete`, defined in Rust on
`Buffer<C, PendingState<N>, L, R>`: unwraps the pending state to `N`. -/
def Buffer.complete (b : Buffer) : Option Buffer :=
  match b.state with
  | .pending _ =>
      some (b.change_state (fun s => match s with
        | .pending n => n
        | s => s))
  | _ => none

/-- Model of `Buffer::release`, defined in Rust on
`Buffer<C, PendingState<N>, L, R>`: disposes the `Relevant` token.  The
result is the token as it stands when the consumed `Buffer` goes out of
scope. -/
def Buffer.release (b : Buffer) : Option Relevant :=
  match b.state with
  | .pending _ => some b.relevant.dispose
  | _ => none

/-- Model of `Buffer::reset` (primed because the record field is named
`reset`), defined in Rust on `Buffer<C, S, L, IndividualReset>` with
`S: Resettable`: moves to `InitialState` without any native call. -/
def Buffer.reset' (b : Buffer) : Option Buffer :=
  if Resettable b.state ∧ b.reset = .individualReset then
    some (b.change_state (fun _ => .initial))
  else none

/-- Model of `Buffer::mark_reset`, defined in Rust on `Buffer<C, S, L>` —
which by the declaration `Buffer<C, S, L, R = NoIndividualReset>` is
`Buffer<C, S, L, NoIndividualReset>` — with `S: Resettable`: moves to
`InitialState`.  The `Device` is threaded through unchanged because the
source issues no native call. -/
def Buffer.mark_reset (b : Buffer) (dev : Device) : Option (Buffer × Device) :=
  if Resettable b.state ∧ b.reset = .noIndividualReset then
    some (b.change_state (fun _ => .initial), dev)
  else none

/-- The `Pool<C, R>` wrapper.  `capability` holds the queue-flags bitmask
(for `Pool<QueueFlags>`) or the flag set of a concrete capability marker
after a downcast. -/
structure Pool where
  raw : Nat
  capability : Nat
  reset : ResetPolicy
  family : Nat
  relevant : Relevant
deriving DecidableEq, Repr

/-- Model of `Pool::from_raw`. -/
def Pool.from_raw (raw capability : Nat) (reset : ResetPolicy) (family : Nat) :
    Pool :=
  ⟨raw, capability, reset, family, ⟨true⟩⟩

/-- Model of `Pool::allocate_buffers`: one native batch allocation call,
each returned handle wrapped via `Buffer::from_raw` in `InitialState`
with the pool's capability, reset policy and family. -/
def Pool.allocate_buffers (p : Pool) (dev : Device) (level : Level)
    (count : Nat) : List Buffer × Device :=
  let (handles, dev1) := dev.allocate_command_buffers p.raw level.level count
  (handles.map (fun raw =>
      Buffer.from_raw raw p.capability .initial level p.reset p.family),
   dev1)

/-- Model of `Pool::free_buffers`.  The source reads each buffer's raw
handle through `raw(&self)` and issues one native batch free; the
`Buffer` values of the vector are then dropped at the end of the function
body with their `Relevant` tokens untouched.  The second component is the
list of those tokens as the buffers go out of scope.  (Rust constrains
the buffers' states to `Resettable` at the type level.) -/
def Pool.free_buffers (p : Pool) (dev : Device) (buffers : List Buffer) :
    Device × List Relevant :=
  let raws := buffers.map (fun b => b.raw)
  (dev.free_command_buffers p.raw raws, buffers.map (fun b => b.relevant))

/-- Model of `Pool::reset` (primed because the record field is named
`reset`): one native pool-wide reset call, pool fields unchanged. -/
def Pool.reset' (p : Pool) (dev : Device) : Pool × Device :=
  (p, dev.reset_command_pool p.raw)

/-- Modelled from the spec: the capability module (`capability.rs` is not
under `src/`; only its use sites are).  Spec §4.2: the downcast
"succeeds only if the requested marker's capability set is a subset of
the pool's actual flags".  A capability marker is represented by the
queue-flags set it stands for; `capFromFlags req flags` is the marker
type's `from_flags`, succeeding exactly when `req` is a subset of
`flags` (bitmask inclusion). -/
def capFromFlags (req flags : Nat) : Option Nat :=
  if req &&& flags = req then some req else none

/-- Model of `Pool::from_flags`: `Ok` (`Sum.inl`) rebuilds the pool with
the downcast capability marker; `Err` (`Sum.inr`) returns `self`. -/
def Pool.from_flags (p : Pool) (req : Nat) : Pool ⊕ Pool :=
  match capFromFlags req p.capability with
  | some capability => .inl { p with capability := capability }
  | none => .inr p

/-- The `OwningPool<C, L>` wrapper: inner pool, level, retained handle
sequence and bump cursor. -/
structure OwningPool where
  inner : Pool
  level : Level
  buffers : List Nat
  next : Nat
deriving DecidableEq, Repr

/-- Model of `OwningPool::from_inner`: empty retained sequence, cursor 0. -/
def OwningPool.from_inner (inner : Pool) (level : Level) : OwningPool :=
  { inner := inner, level := level, buffers := [], next := 0 }

/-- Model of `OwningPool::reserve`: if `next + count >= buffers.len()`,
allocate the shortfall in one native batch call and append it. -/
def OwningPool.reserve (p : OwningPool) (dev : Device) (count : Nat) :
    OwningPool × Device :=
  let total := p.next + count
  if p.buffers.length ≤ total then
    let add := total - p.buffers.length
    let (handles, dev1) :=
      dev.allocate_command_buffers p.inner.raw p.level.level add
    ({ p with buffers := p.buffers ++ handles }, dev1)
  else
    (p, dev)

/-- Model of `OwningPool::acquire_buffer`: `reserve(1)`, advance the
cursor, wrap `buffers[next - 1]`.  The index access is modelled with
`getD`; that it is always in bounds is proved separately. -/
def OwningPool.acquire_buffer (p : OwningPool) (dev : Device) :
    Buffer × OwningPool × Device :=
  let (p1, dev1) := p.reserve dev 1
  let p2 := { p1 with next := p1.next + 1 }
  (Buffer.from_raw (p1.buffers.getD (p2.next - 1) 0) p1.inner.capability
      .initial p1.level p1.inner.reset p1.inner.family,
   p2, dev1)

/-- Model of `OwningPool::reset`: reset the inner pool (one native
pool-wide reset call) and rewind the cursor to 0; the retained sequence
is untouched. -/
def OwningPool.reset (p : OwningPool) (dev : Device) : OwningPool × Device :=
  let (inner1, dev1) := p.inner.reset' dev
  ({ p with inner := inner1, next := 0 }, dev1)

/-- Model of `OwningPool::from_flags`: delegates to the inner pool's
downcast; both branches rebuild the `OwningPool` with the same `level`,
`buffers` and `next`. -/
def OwningPool.from_flags (p : OwningPool) (req : Nat) :
    OwningPool ⊕ OwningPool :=
  match p.inner.from_flags req with
  | .inl inner =>
      .inl { inner := inner, level := p.level, buffers := p.buffers,
             next := p.next }
  | .inr inner =>
      .inr { inner := inner, level := p.level, buffers := p.buffers,
             next := p.next }

/-- Iterate `acquire_buffer` `j` times, collecting the raw handles of the
returned buffers in order. -/
def acquireRaws (p : OwningPool) (dev : Device) : Nat → List Nat × OwningPool × Device
  | 0 => ([], p, dev)
  | j + 1 =>
      let (b, p1, d1) := p.acquire_buffer dev
      let (rs, p2, d2) := acquireRaws p1 d1 j
      (b.raw :: rs, p2, d2)

/-- Pools reachable from a freshly wrapped pool (`from_inner`) by any
sequence of `reserve`, `acquire_buffer`, `reset` and `from_flags`
(either outcome), under arbitrary device states. -/
inductive ReachOP : OwningPool → Prop where
  | base (inner : Pool) (level : Level) : ReachOP (OwningPool.from_inner inner level)
  | reserve (p : OwningPool) (dev : Device) (n : Nat) :
      ReachOP p → ReachOP (p.reserve dev n).1
  | acquire (p : OwningPool) (dev : Device) :
      ReachOP p → ReachOP (p.acquire_buffer dev).2.1
  | reset (p : OwningPool) (dev : Device) :
      ReachOP p → ReachOP (p.reset dev).1
  | fromFlagsOk (p : OwningPool) (req : Nat) (q : OwningPool) :
      ReachOP p → p.from_flags req = .inl q → ReachOP q
  | fromFlagsErr (p : OwningPool) (req : Nat) (q : OwningPool) :
      ReachOP p → p.from_flags req = .inr q → ReachOP q

/-! ## Claim theorems: the Buffer state machine -/

/-- C1 counterexample: a buffer carrying the `IndividualReset` policy
marker, in the Resettable state `InitialState`, on which `mark_reset` is
not available (`Buffer::mark_reset` is defined on `Buffer<C, S, L>`,
i.e. with the default `R = NoIndividualReset` only), contradicting the
claim that `mark_reset` is available regardless of the reset policy. -/
theorem c1_counterexample :
    (Buffer.from_raw 0 0 .initial .primary .individualReset 0).mark_reset
      ⟨0, []⟩ = none := by
  decide

/-- C1 (amended): for every buffer whose reset-policy marker is the
pool-only `NoIndividualReset` policy and whose state is Resettable,
`mark_reset` is available and returns the buffer in `InitialState`,
issuing no native device call (the device state is returned unchanged)
and leaving raw handle, capability, level, reset policy and family
unchanged. -/
theorem c1_mark_reset (b : Buffer) (dev : Device)
    (hres : Resettable b.state = true)
    (hpol : b.reset = ResetPolicy.noIndividualReset) :
    ∃ b', b.mark_reset dev = some (b', dev) ∧
      b'.state = BufState.initial ∧ b'.raw = b.raw ∧
      b'.capability = b.capability ∧ b'.level = b.level ∧
      b'.reset = b.reset ∧ b'.family = b.family := by
  refine ⟨b.change_state (fun _ => .initial), ?_, rfl, rfl, rfl, rfl, rfl, rfl⟩
  simp [Buffer.mark_reset, hres, hpol]

/-- C1 witness: the amended statement evaluated on a concrete pool-only
buffer in `InitialState`. -/
theorem c1_witness :
    Resettable (Buffer.from_raw 3 1 .invalid .secondary .noIndividualReset 5).state = true ∧
    (Buffer.from_raw 3 1 .invalid .secondary .noIndividualReset 5).reset = ResetPolicy.noIndividualReset ∧
    ∃ b', (Buffer.from_raw 3 1 .invalid .secondary .noIndividualReset 5).mark_reset ⟨2, []⟩ =
        some (b', ⟨2, []⟩) ∧
      b'.state = BufState.initial ∧
      b'.raw = (Buffer.from_raw 3 1 .invalid .secondary .noIndividualReset 5).raw ∧
      b'.capability = (Buffer.from_raw 3 1 .invalid .secondary .noIndividualReset 5).capability ∧
      b'.level = (Buffer.from_raw 3 1 .invalid .secondary .noIndividualReset 5).level ∧
      b'.reset = (Buffer.from_raw 3 1 .invalid .secondary .noIndividualReset 5).reset ∧
      b'.family = (Buffer.from_raw 3 1 .invalid .secondary .noIndividualReset 5).family :=
  ⟨by decide, rfl,
   c1_mark_reset (Buffer.from_raw 3 1 .invalid .secondary .noIndividualReset 5)
     ⟨2, []⟩ (by decide) rfl⟩

/-- C2: evaluation at the failing input.  `Pool::free_buffers` reads each
buffer's handle with `raw(&self)` and lets the `Buffer` values drop with
their `Relevant` token still live, so every call triggers the
undischarged-disposal abort — while `into_raw` and `release` do
discharge the token before the buffer goes out of scope. -/
theorem c2_free_buffers_leaks_token :
    (((Pool.from_raw 10 3 .noIndividualReset 0).free_buffers ⟨1, []⟩
        [Buffer.from_raw 0 3 .initial .primary .noIndividualReset 0]).2.map
      Relevant.abortsOnDrop = [true]) ∧
    ((Buffer.from_raw 0 3 .initial .primary .noIndividualReset 0).into_raw.2.abortsOnDrop
      = false) ∧
    ((Buffer.from_raw 0 3 (.pending .invalid) .primary .noIndividualReset 0).release
      = some ⟨false⟩) := by
  decide

/-- C5: on `Executable⟨MultiShot⟨S⟩⟩` at primary level, `submit` yields
`Pending⟨Executable⟨MultiShot⟨S⟩⟩⟩`, `complete` restores exactly
`Executable⟨MultiShot⟨S⟩⟩`, and a second `submit` is again available:
submit → complete → submit is a legal sequence. -/
theorem c5_multishot_round_trip (b : Buffer) (s : Sim)
    (hs : b.state = BufState.executable (.multiShot s))
    (hl : b.level = Level.primary) :
    ∃ sub b1 b2, b.submit = some (sub, b1) ∧
      b1.state = BufState.pending (BufState.executable (.multiShot s)) ∧
      b1.complete = some b2 ∧
      b2.state = BufState.executable (.multiShot s) ∧
      b2.submit.isSome = true := by
  obtain ⟨raw, cap, st, lv, rs, fam, rel⟩ := b
  simp only at hs hl
  subst hs; subst hl
  exact ⟨_, _, _, rfl, rfl, rfl, rfl, rfl⟩

/-- C5 witness: the round trip evaluated on a concrete multi-shot
executable buffer. -/
theorem c5_witness :
    (Buffer.from_raw 4 1 (.executable (.multiShot .simultaneousUse)) .primary
        .individualReset 1).state = BufState.executable (.multiShot .simultaneousUse) ∧
    ∃ sub b1 b2,
      (Buffer.from_raw 4 1 (.executable (.multiShot .simultaneousUse)) .primary
        .individualReset 1).submit = some (sub, b1) ∧
      b1.state = BufState.pending (BufState.executable (.multiShot .simultaneousUse)) ∧
      b1.complete = some b2 ∧
      b2.state = BufState.executable (.multiShot .simultaneousUse) ∧
      b2.submit.isSome = true :=
  ⟨rfl,
   c5_multishot_round_trip
     (Buffer.from_raw 4 1 (.executable (.multiShot .simultaneousUse)) .primary
       .individualReset 1) .simultaneousUse rfl rfl⟩

/-- C6: on `Executable⟨OneShot⟩` at primary level, `submit_once` yields a
`Submit` token carrying the buffer's raw handle and family index
together with the buffer in `Pending⟨Invalid⟩`, and `complete` on that
result yields `Invalid`. -/
theorem c6_submit_once (b : Buffer)
    (hs : b.state = BufState.executable .oneShot)
    (hl : b.level = Level.primary) :
    ∃ sub b1 b2, b.submit_once = some (sub, b1) ∧
      sub.raw = b.raw ∧ sub.family = b.family ∧
      b1.state = BufState.pending BufState.invalid ∧
      b1.complete = some b2 ∧
      b2.state = BufState.invalid := by
  obtain ⟨raw, cap, st, lv, rs, fam, rel⟩ := b
  simp only at hs hl
  subst hs; subst hl
  exact ⟨_, _, _, rfl, rfl, rfl, rfl, rfl, rfl⟩

/-- C6 witness: the spec's example scenario.  A pool with family index 2
and flags {graphics, compute} (mask 3) allocates one primary buffer
(handle 0, the first fresh handle); `begin(OneShot)` then `finish` make
it executable; `submit_once` produces a token with family 2 and the
originally allocated handle 0, and the buffer moves to
`Pending⟨Invalid⟩`. -/
theorem c6_witness :
    (((Pool.from_raw 7 3 .noIndividualReset 2).allocate_buffers ⟨0, []⟩ .primary 1).1 =
      [Buffer.from_raw 0 3 .initial .primary .noIndividualReset 2]) ∧
    ((Buffer.from_raw 0 3 .initial .primary .noIndividualReset 2).begin .oneShot
        ((Pool.from_raw 7 3 .noIndividualReset 2).allocate_buffers ⟨0, []⟩ .primary 1).2 =
      some (Buffer.from_raw 0 3 (.recording .oneShot) .primary .noIndividualReset 2,
        ⟨1, [.allocateCommandBuffers 7 0 1, .beginCommandBuffer 0 1]⟩)) ∧
    ((Buffer.from_raw 0 3 (.recording .oneShot) .primary .noIndividualReset 2).finish
        ⟨1, [.allocateCommandBuffers 7 0 1, .beginCommandBuffer 0 1]⟩ =
      some (Buffer.from_raw 0 3 (.executable .oneShot) .primary .noIndividualReset 2,
        ⟨1, [.allocateCommandBuffers 7 0 1, .beginCommandBuffer 0 1, .endCommandBuffer 0]⟩)) ∧
    ∃ sub b1 b2,
      (Buffer.from_raw 0 3 (.executable .oneShot) .primary .noIndividualReset 2).submit_once =
        some (sub, b1) ∧
      sub.raw = (Buffer.from_raw 0 3 (.executable .oneShot) .primary .noIndividualReset 2).raw ∧
      sub.family = (Buffer.from_raw 0 3 (.executable .oneShot) .primary .noIndividualReset 2).family ∧
      b1.state = BufState.pending BufState.invalid ∧
      b1.complete = some b2 ∧
      b2.state = BufState.invalid :=
  ⟨by decide, by decide, by decide,
   c6_submit_once
     (Buffer.from_raw 0 3 (.executable .oneShot) .primary .noIndividualReset 2) rfl rfl⟩

/-- C7: on `InitialState` at primary level, `begin(usage)` followed by
`finish` yields `Executable⟨usage⟩` with the originally passed usage,
and neither operation alters the raw handle, capability, level, reset
policy or family. -/
theorem c7_begin_finish (b : Buffer) (u : Usage) (dev : Device)
    (hs : b.state = BufState.initial)
    (hl : b.level = Level.primary) :
    ∃ b1 d1 b2 d2, b.begin u dev = some (b1, d1) ∧
      b1.finish d1 = some (b2, d2) ∧
      b1.state = BufState.recording u ∧
      b2.state = BufState.executable u ∧
      b1.raw = b.raw ∧ b1.capability = b.capability ∧ b1.level = b.level ∧
      b1.reset = b.reset ∧ b1.family = b.family ∧
      b2.raw = b.raw ∧ b2.capability = b.capability ∧ b2.level = b.level ∧
      b2.reset = b.reset ∧ b2.family = b.family := by
  obtain ⟨raw, cap, st, lv, rs, fam, rel⟩ := b
  simp only at hs hl
  subst hs; subst hl
  exact ⟨_, _, _, _, rfl, rfl, rfl, rfl, rfl, rfl, rfl, rfl, rfl, rfl, rfl,
    rfl, rfl, rfl⟩

/-- C7 witness: `begin(MultiShot⟨()⟩)` then `finish` evaluated on a
concrete initial primary buffer. -/
theorem c7_witness :
    (Buffer.from_raw 6 2 .initial .primary .individualReset 4).state = BufState.initial ∧
    ∃ b1 d1 b2 d2,
      (Buffer.from_raw 6 2 .initial .primary .individualReset 4).begin
        (.multiShot .unit) ⟨0, []⟩ = some (b1, d1) ∧
      b1.finish d1 = some (b2, d2) ∧
      b1.state = BufState.recording (.multiShot .unit) ∧
      b2.state = BufState.executable (.multiShot .unit) ∧
      b1.raw = (Buffer.from_raw 6 2 .initial .primary .individualReset 4).raw ∧
      b1.capability = (Buffer.from_raw 6 2 .initial .primary .individualReset 4).capability ∧
      b1.level = (Buffer.from_raw 6 2 .initial .primary .individualReset 4).level ∧
      b1.reset = (Buffer.from_raw 6 2 .initial .primary .individualReset 4).reset ∧
      b1.family = (Buffer.from_raw 6 2 .initial .primary .individualReset 4).family ∧
      b2.raw = (Buffer.from_raw 6 2 .initial .primary .individualReset 4).raw ∧
      b2.capability = (Buffer.from_raw 6 2 .initial .primary .individualReset 4).capability ∧
      b2.level = (Buffer.from_raw 6 2 .initial .primary .individualReset 4).level ∧
      b2.reset = (Buffer.from_raw 6 2 .initial .primary .individualReset 4).reset ∧
      b2.family = (Buffer.from_raw 6 2 .initial .primary .individualReset 4).family :=
  ⟨rfl,
   c7_begin_finish (Buffer.from_raw 6 2 .initial .primary .individualReset 4)
     (.multiShot .unit) ⟨0, []⟩ rfl rfl⟩

/-- C8: the safe `reset` is available exactly when the reset-policy
marker is `IndividualReset` and the state is Resettable (never
`Pending`); when available it yields the buffer in `InitialState` with
all other fields unchanged; under the pool-only policy it is
unavailable. -/
theorem c8_reset_availability (b : Buffer) :
    (b.reset'.isSome = true ↔
      (Resettable b.state = true ∧ b.reset = ResetPolicy.individualReset)) ∧
    (∀ b', b.reset' = some b' → b'.state = BufState.initial ∧
      b'.raw = b.raw ∧ b'.capability = b.capability ∧ b'.level = b.level ∧
      b'.reset = b.reset ∧ b'.family = b.family) ∧
    (b.reset = ResetPolicy.noIndividualReset → b.reset' = none) ∧
    (∀ n, b.state = BufState.pending n → b.reset' = none) := by
  unfold Buffer.reset'
  split_ifs with h
  · refine ⟨by simp [h], ?_, ?_, ?_⟩
    · intro b' hb'
      obtain rfl : b.change_state (fun _ => .initial) = b' := by
        simpa using hb'
      exact ⟨rfl, rfl, rfl, rfl, rfl, rfl⟩
    · intro hpol
      rw [hpol] at h
      exact absurd h.2 (by simp)
    · intro n hn
      rw [hn] at h
      exact absurd h.1 (by simp [Resettable])
  · refine ⟨?_, by simp, fun _ => rfl, fun _ _ => rfl⟩
    simp only [Option.isSome_none, Bool.false_eq_true, false_iff]
    exact h

/-- C8 witness: availability evaluated on a concrete individually
resettable buffer in `InvalidState`. -/
theorem c8_witness :
    ((Buffer.from_raw 2 1 .invalid .primary .individualReset 0).reset'.isSome = true ↔
      (Resettable (Buffer.from_raw 2 1 .invalid .primary .individualReset 0).state = true ∧
        (Buffer.from_raw 2 1 .invalid .primary .individualReset 0).reset =
          ResetPolicy.individualReset)) ∧
    (∀ b', (Buffer.from_raw 2 1 .invalid .primary .individualReset 0).reset' = some b' →
      b'.state = BufState.initial ∧
      b'.raw = (Buffer.from_raw 2 1 .invalid .primary .individualReset 0).raw ∧
      b'.capability = (Buffer.from_raw 2 1 .invalid .primary .individualReset 0).capability ∧
      b'.level = (Buffer.from_raw 2 1 .invalid .primary .individualReset 0).level ∧
      b'.reset = (Buffer.from_raw 2 1 .invalid .primary .individualReset 0).reset ∧
      b'.family = (Buffer.from_raw 2 1 .invalid .primary .individualReset 0).family) ∧
    ((Buffer.from_raw 2 1 .invalid .primary .individualReset 0).reset =
      ResetPolicy.noIndividualReset →
      (Buffer.from_raw 2 1 .invalid .primary .individualReset 0).reset' = none) ∧
    (∀ n, (Buffer.from_raw 2 1 .invalid .primary .individualReset 0).state =
      BufState.pending n →
      (Buffer.from_raw 2 1 .invalid .primary .individualReset 0).reset' = none) :=
  c8_reset_availability (Buffer.from_raw 2 1 .invalid .primary .individualReset 0)

/-! ## Helper lemmas for the pool claims -/

/-- Characterization of `OwningPool::reserve`: the cursor, inner pool and
level are unchanged; afterwards at least `next + count` handles are
retained; exactly one batch allocation call (of the shortfall
`next + count - len`, possibly zero) is issued when
`len <= next + count`, and none otherwise. -/
theorem OwningPool.reserve_spec (p : OwningPool) (dev : Device) (n : Nat) :
    (p.reserve dev n).1.next = p.next ∧
    (p.reserve dev n).1.inner = p.inner ∧
    (p.reserve dev n).1.level = p.level ∧
    p.next + n ≤ (p.reserve dev n).1.buffers.length ∧
    (p.reserve dev n).2.log = dev.log ++
      (if p.buffers.length ≤ p.next + n then
        [DevCall.allocateCommandBuffers p.inner.raw p.level.level
          (p.next + n - p.buffers.length)]
       else []) ∧
    (p.reserve dev n).2.fresh = dev.fresh +
      (if p.buffers.length ≤ p.next + n then p.next + n - p.buffers.length
       else 0) ∧
    (p.reserve dev n).1.buffers = p.buffers ++
      (if p.buffers.length ≤ p.next + n then
        (List.range (p.next + n - p.buffers.length)).map (· + dev.fresh)
       else []) := by
  unfold OwningPool.reserve Device.allocate_command_buffers
  dsimp only
  by_cases h : p.buffers.length ≤ p.next + n <;> simp [h] <;> omega

/-- Characterization of `OwningPool::acquire_buffer` when the retained
sequence already holds a handle for the new cursor position: the handle
at index `next` is wrapped, the cursor advances by one, the sequence is
unchanged, and the only native call possibly issued is a zero-count
batch allocation (exactly when `next + 1 = len`, due to `reserve`'s
`total >= len` test). -/
theorem OwningPool.acquire_buffer_spec (p : OwningPool) (dev : Device)
    (h : p.next + 1 ≤ p.buffers.length) :
    p.acquire_buffer dev =
      (Buffer.from_raw (p.buffers.getD p.next 0) p.inner.capability .initial
         p.level p.inner.reset p.inner.family,
       { p with next := p.next + 1 },
       ⟨dev.fresh, dev.log ++
         (if p.next + 1 = p.buffers.length then
           [DevCall.allocateCommandBuffers p.inner.raw p.level.level 0]
          else [])⟩) := by
  unfold OwningPool.acquire_buffer OwningPool.reserve
    Device.allocate_command_buffers
  dsimp only
  by_cases he : p.next + 1 = p.buffers.length
  · have hc : p.buffers.length ≤ p.next + 1 := by omega
    have hidx : p.buffers.length - 1 = p.next := by omega
    simp [hc, he, List.range_zero, hidx]
  · have hc : ¬ p.buffers.length ≤ p.next + 1 := by omega
    simp [hc, he]

/-- Characterization of `j` successive `acquire_buffer` calls while the
retained sequence already covers the final cursor position
(`next + j <= len`): the raw handles handed out are the retained handles
from index `next` on, in order; the retained sequence is unchanged; the
cursor advances by `j`; and the only native call possibly issued is a
single zero-count batch allocation on the final step, exactly when the
cursor lands on the end of the sequence. -/
theorem acquireRaws_spec :
    ∀ (j : Nat) (p : OwningPool) (dev : Device),
      p.next + j ≤ p.buffers.length →
      (acquireRaws p dev j).1 = (p.buffers.drop p.next).take j ∧
      (acquireRaws p dev j).2.1 = { p with next := p.next + j } ∧
      (acquireRaws p dev j).2.2 = ⟨dev.fresh, dev.log ++
        (if 1 ≤ j ∧ p.next + j = p.buffers.length then
          [DevCall.allocateCommandBuffers p.inner.raw p.level.level 0]
         else [])⟩
  | 0, p, dev, _ => by
      have hcond : ¬ (1 ≤ 0 ∧ p.next + 0 = p.buffers.length) := by omega
      refine ⟨rfl, rfl, ?_⟩
      rw [if_neg hcond]
      simp [acquireRaws]
  | j + 1, p, dev, h => by
      have h1 : p.next + 1 ≤ p.buffers.length := by omega
      have hidx : p.next < p.buffers.length := by omega
      have hstep := OwningPool.acquire_buffer_spec p dev h1
      obtain ⟨ih1, ih2, ih3⟩ := acquireRaws_spec j { p with next := p.next + 1 }
        ⟨dev.fresh, dev.log ++
          (if p.next + 1 = p.buffers.length then
            [DevCall.allocateCommandBuffers p.inner.raw p.level.level 0]
           else [])⟩
        (by dsimp only; omega)
      simp only [acquireRaws]
      rw [hstep]
      dsimp only [Buffer.from_raw]
      refine ⟨?_, ?_, ?_⟩
      · rw [ih1]
        dsimp only
        rw [List.drop_eq_getElem_cons hidx, List.take_succ_cons,
          List.getD_eq_getElem p.buffers 0 hidx]
      · rw [ih2]
        dsimp only
        have harith : p.next + 1 + j = p.next + (j + 1) := by omega
        rw [harith]
      · rw [ih3]
        dsimp only
        by_cases he : p.next + 1 = p.buffers.length
        · have hj : j = 0 := by omega
          subst hj
          have hc2 : ¬ (1 ≤ 0 ∧ p.next + 1 + 0 = p.buffers.length) := by omega
          have hcg : (1 ≤ 0 + 1 ∧ p.next + (0 + 1) = p.buffers.length) := by omega
          rw [if_pos he, if_neg hc2, if_pos hcg]
          simp
        · have hiff : (1 ≤ j ∧ p.next + 1 + j = p.buffers.length) ↔
              (1 ≤ j + 1 ∧ p.next + (j + 1) = p.buffers.length) := by omega
          rw [if_neg he, if_congr hiff rfl rfl]
          simp

/-- Characterization of `Pool::from_flags`: the downcast succeeds exactly
when the requested marker's flag set is a subset of the stored flags
(bitmask inclusion), rebuilding the pool with the marker; on failure the
original pool itself is returned. -/
theorem Pool.from_flags_eq (p : Pool) (req : Nat) :
    p.from_flags req =
      (if req &&& p.capability = req then
        Sum.inl { p with capability := req }
       else Sum.inr p) := by
  unfold Pool.from_flags capFromFlags
  split_ifs with h <;> rfl

/-- Characterization of `OwningPool::from_flags`: success and failure
mirror the inner pool's downcast; both branches keep the level, the
retained sequence and the cursor, and failure returns the original
owning pool itself. -/
theorem OwningPool.from_flags_owning_eq (p : OwningPool) (req : Nat) :
    p.from_flags req =
      (if req &&& p.inner.capability = req then
        Sum.inl { p with inner := { p.inner with capability := req } }
       else Sum.inr p) := by
  unfold OwningPool.from_flags
  rw [Pool.from_flags_eq]
  split_ifs with h <;> rfl

/-- Unconditional shape of the pool returned by `acquire_buffer`: the
pool after `reserve(1)` with the cursor advanced by one. -/
theorem OwningPool.acquire_pool_eq (p : OwningPool) (dev : Device) :
    (p.acquire_buffer dev).2.1 =
      { (p.reserve dev 1).1 with next := (p.reserve dev 1).1.next + 1 } := rfl

/-- Cursor invariant: on every pool reachable by `reserve`,
`acquire_buffer`, `reset` and `from_flags` from a freshly wrapped pool,
the cursor never exceeds the length of the retained sequence. -/
theorem ReachOP.next_le (p : OwningPool) (h : ReachOP p) :
    p.next ≤ p.buffers.length := by
  induction h with
  | base inner level => exact Nat.le_refl 0
  | reserve p dev n _ _ =>
      obtain ⟨h1, -, -, h4, -⟩ := OwningPool.reserve_spec p dev n
      omega
  | acquire p dev _ _ =>
      rw [OwningPool.acquire_pool_eq]
      obtain ⟨h1, -, -, h4, -⟩ := OwningPool.reserve_spec p dev 1
      dsimp only
      omega
  | reset p dev _ ih =>
      exact Nat.zero_le _
  | fromFlagsOk p req q _ heq ih =>
      rw [OwningPool.from_flags_owning_eq] at heq
      split_ifs at heq with hc
      obtain rfl : ({ p with inner := { p.inner with capability := req } } : OwningPool) = q := by
        simpa using heq
      exact ih
  | fromFlagsErr p req q _ heq ih =>
      rw [OwningPool.from_flags_owning_eq] at heq
      split_ifs at heq with hc
      obtain rfl : p = q := by simpa using heq
      exact ih

/-- Splitting the allocation-call count over an append. -/
theorem allocCalls_append (l1 l2 : List DevCall) :
    allocCalls (l1 ++ l2) = allocCalls l1 + allocCalls l2 := by
  unfold allocCalls
  rw [List.filter_append, List.length_append]

/-- Splitting the nonzero-allocation-call count over an append. -/
theorem allocPosCalls_append (l1 l2 : List DevCall) :
    allocPosCalls (l1 ++ l2) = allocPosCalls l1 + allocPosCalls l2 := by
  unfold allocPosCalls
  rw [List.filter_append, List.length_append]

/-! ## Claim theorems: the pools -/

/-- C3 counterexample: on a freshly wrapped owning pool, `reserve(1)`
followed by one `acquire_buffer` issues two batch allocation calls, not
at most one: `reserve`'s `total >= len` test fires again inside the
acquire's `reserve(1)` when the cursor reaches the end of the retained
sequence, issuing a second, zero-count allocation call. -/
theorem c3_counterexample :
    ¬ (allocCalls (acquireRaws
        ((OwningPool.from_inner (Pool.from_raw 9 0 .noIndividualReset 0)
          .primary).reserve ⟨0, []⟩ 1).1
        ((OwningPool.from_inner (Pool.from_raw 9 0 .noIndividualReset 0)
          .primary).reserve ⟨0, []⟩ 1).2
        1).2.2.log ≤ 1) := by
  decide

/-- C3 (amended): for every owning pool and every `n >= 1`, `reserve(n)`
followed by `n` calls to `acquire_buffer` issues at most two batch
allocation calls in total, of which at most one requests a nonzero
number of buffers (the other, when present, is the zero-count call of
the final acquire) — in particular never `n` separate nonzero
allocations. -/
theorem c3_reserve_then_acquires (p : OwningPool) (dev : Device) (n : Nat)
    (hn : 1 ≤ n) :
    ∃ added,
      (acquireRaws (p.reserve dev n).1 (p.reserve dev n).2 n).2.2.log =
        dev.log ++ added ∧
      allocCalls added ≤ 2 ∧ allocPosCalls added ≤ 1 := by
  obtain ⟨h1, -, -, h4, h5, -, -⟩ := OwningPool.reserve_spec p dev n
  obtain ⟨-, -, a3⟩ := acquireRaws_spec n (p.reserve dev n).1
    (p.reserve dev n).2 (by omega)
  refine ⟨(if p.buffers.length ≤ p.next + n then
      [DevCall.allocateCommandBuffers p.inner.raw p.level.level
        (p.next + n - p.buffers.length)] else []) ++
    (if 1 ≤ n ∧ (p.reserve dev n).1.next + n =
        (p.reserve dev n).1.buffers.length then
      [DevCall.allocateCommandBuffers (p.reserve dev n).1.inner.raw
        (p.reserve dev n).1.level.level 0] else []), ?_, ?_, ?_⟩
  · rw [a3]
    dsimp only
    rw [h5, List.append_assoc]
  · rw [allocCalls_append]
    have e1 : allocCalls (if p.buffers.length ≤ p.next + n then
        [DevCall.allocateCommandBuffers p.inner.raw p.level.level
          (p.next + n - p.buffers.length)] else []) ≤ 1 := by
      split_ifs <;> simp [allocCalls, DevCall.isAlloc]
    have e2 : allocCalls (if 1 ≤ n ∧ (p.reserve dev n).1.next + n =
        (p.reserve dev n).1.buffers.length then
        [DevCall.allocateCommandBuffers (p.reserve dev n).1.inner.raw
          (p.reserve dev n).1.level.level 0] else []) ≤ 1 := by
      split_ifs <;> simp [allocCalls, DevCall.isAlloc]
    omega
  · rw [allocPosCalls_append]
    have e1 : allocPosCalls (if p.buffers.length ≤ p.next + n then
        [DevCall.allocateCommandBuffers p.inner.raw p.level.level
          (p.next + n - p.buffers.length)] else []) ≤ 1 := by
      refine le_trans (List.length_filter_le _ _) ?_
      split_ifs <;> simp
    have e2 : allocPosCalls (if 1 ≤ n ∧ (p.reserve dev n).1.next + n =
        (p.reserve dev n).1.buffers.length then
        [DevCall.allocateCommandBuffers (p.reserve dev n).1.inner.raw
          (p.reserve dev n).1.level.level 0] else []) = 0 := by
      split_ifs <;> simp [allocPosCalls, DevCall.isAllocPos, List.filter]
    omega

/-- C3 witness: the amended bound evaluated on a freshly wrapped owning
pool with `n = 1`. -/
theorem c3_witness :
    1 ≤ 1 ∧
    ∃ added,
      (acquireRaws
        ((OwningPool.from_inner (Pool.from_raw 9 0 .noIndividualReset 0)
          .primary).reserve ⟨0, []⟩ 1).1
        ((OwningPool.from_inner (Pool.from_raw 9 0 .noIndividualReset 0)
          .primary).reserve ⟨0, []⟩ 1).2
        1).2.2.log = (⟨0, []⟩ : Device).log ++ added ∧
      allocCalls added ≤ 2 ∧ allocPosCalls added ≤ 1 :=
  ⟨Nat.le_refl 1,
   c3_reserve_then_acquires
     (OwningPool.from_inner (Pool.from_raw 9 0 .noIndividualReset 0) .primary)
     ⟨0, []⟩ 1 (Nat.le_refl 1)⟩

/-- C4: if the first `k` positions of the retained sequence hold handles
`h_1 .. h_k` with `k` not exceeding the retained capacity, then after
`reset()` the next `k` `acquire_buffer` calls return exactly those
handles, identical and in the same order, and `reset` removes nothing
from the retained sequence. -/
theorem c4_reset_reuses_handles (p : OwningPool) (dev : Device) (k : Nat)
    (hk : k ≤ p.buffers.length) :
    (p.reset dev).1.buffers = p.buffers ∧
    (acquireRaws (p.reset dev).1 (p.reset dev).2 k).1 = p.buffers.take k := by
  have hb : (p.reset dev).1.buffers = p.buffers := rfl
  have hn : (p.reset dev).1.next = 0 := rfl
  obtain ⟨a1, -, -⟩ := acquireRaws_spec k (p.reset dev).1 (p.reset dev).2
    (by rw [hb, hn]; omega)
  refine ⟨hb, ?_⟩
  rw [a1, hb, hn, List.drop_zero]

/-- C4 witness: a pool retaining handles `[5, 6, 7]` with cursor 3; after
`reset`, two acquires hand back `5` then `6`. -/
theorem c4_witness :
    2 ≤ (OwningPool.mk (Pool.from_raw 9 0 .noIndividualReset 0) .primary
      [5, 6, 7] 3).buffers.length ∧
    ((OwningPool.mk (Pool.from_raw 9 0 .noIndividualReset 0) .primary
        [5, 6, 7] 3).reset ⟨8, []⟩).1.buffers =
      (OwningPool.mk (Pool.from_raw 9 0 .noIndividualReset 0) .primary
        [5, 6, 7] 3).buffers ∧
    (acquireRaws
      ((OwningPool.mk (Pool.from_raw 9 0 .noIndividualReset 0) .primary
        [5, 6, 7] 3).reset ⟨8, []⟩).1
      ((OwningPool.mk (Pool.from_raw 9 0 .noIndividualReset 0) .primary
        [5, 6, 7] 3).reset ⟨8, []⟩).2 2).1 =
      (OwningPool.mk (Pool.from_raw 9 0 .noIndividualReset 0) .primary
        [5, 6, 7] 3).buffers.take 2 :=
  ⟨by decide,
   (c4_reset_reuses_handles
     (OwningPool.mk (Pool.from_raw 9 0 .noIndividualReset 0) .primary
       [5, 6, 7] 3) ⟨8, []⟩ 2 (by decide)).1,
   (c4_reset_reuses_handles
     (OwningPool.mk (Pool.from_raw 9 0 .noIndividualReset 0) .primary
       [5, 6, 7] 3) ⟨8, []⟩ 2 (by decide)).2⟩

/-- C9: for both `Pool` and `OwningPool`, the capability downcast
succeeds if and only if the requested marker's flag set is a subset of
the stored flags (bitmask inclusion); on success the capability is
replaced and every other field kept; on failure the original value
itself — for an `OwningPool` including its retained sequence and
cursor — is returned unchanged. -/
theorem c9_capability_downcast (p : Pool) (op : OwningPool) (req : Nat) :
    ((p.from_flags req).isLeft = true ↔ req &&& p.capability = req) ∧
    ((op.from_flags req).isLeft = true ↔ req &&& op.inner.capability = req) ∧
    p.from_flags req =
      (if req &&& p.capability = req then
        Sum.inl { p with capability := req }
       else Sum.inr p) ∧
    op.from_flags req =
      (if req &&& op.inner.capability = req then
        Sum.inl { op with inner := { op.inner with capability := req } }
       else Sum.inr op) := by
  refine ⟨?_, ?_, Pool.from_flags_eq p req, OwningPool.from_flags_owning_eq op req⟩
  · rw [Pool.from_flags_eq]
    split_ifs with h <;> simp [h]
  · rw [OwningPool.from_flags_owning_eq]
    split_ifs with h <;> simp [h]

/-- C10: on every owning pool reachable from a freshly wrapped pool by
`reserve`, `acquire_buffer`, `reset` and `from_flags`, the cursor never
exceeds the length of the retained sequence; and the index
`buffers[next - 1]` read inside `acquire_buffer` — which is the
post-`reserve(1)` cursor value — is always strictly within bounds, so
the access cannot panic. -/
theorem c10_cursor_in_bounds (p : OwningPool) (dev : Device)
    (h : ReachOP p) :
    p.next ≤ p.buffers.length ∧
    (p.reserve dev 1).1.next < (p.reserve dev 1).1.buffers.length := by
  refine ⟨ReachOP.next_le p h, ?_⟩
  obtain ⟨h1, -, -, h4, -⟩ := OwningPool.reserve_spec p dev 1
  omega

/-- C10 witness: the bound evaluated on a freshly wrapped owning pool. -/
theorem c10_witness :
    ReachOP (OwningPool.from_inner (Pool.from_raw 9 0 .noIndividualReset 0)
      .primary) ∧
    ((OwningPool.from_inner (Pool.from_raw 9 0 .noIndividualReset 0)
        .primary).next ≤
      (OwningPool.from_inner (Pool.from_raw 9 0 .noIndividualReset 0)
        .primary).buffers.length ∧
     ((OwningPool.from_inner (Pool.from_raw 9 0 .noIndividualReset 0)
        .primary).reserve ⟨0, []⟩ 1).1.next <
      ((OwningPool.from_inner (Pool.from_raw 9 0 .noIndividualReset 0)
        .primary).reserve ⟨0, []⟩ 1).1.buffers.length) :=
  ⟨ReachOP.base (Pool.from_raw 9 0 .noIndividualReset 0) .primary,
   c10_cursor_in_bounds
     (OwningPool.from_inner (Pool.from_raw 9 0 .noIndividualReset 0) .primary)
     ⟨0, []⟩
     (ReachOP.base (Pool.from_raw 9 0 .noIndividualReset 0) .primary)⟩
